import Mathlib

/-!
# Verification of the niimprint protocol core

A shallow embedding of the niimprint printer driver (`printer.py` and the
`packet` codec it imports), with theorems checking the natural-language
specification against the code.  Bytes are modelled as `Nat` (with explicit
range hypotheses where byte-ness matters), byte strings as `List Nat`,
Python exceptions as an error type threaded through `Except`/`Option`, and
the transport as an oracle function supplying the bytes each read returns.
-/

namespace Niimprint

/-- Kinds of Python exceptions raised by the code under verification. -/
inductive PyError where
  | valueError
  | connectionError
  | notImplementedError
  | attributeError
  | indexError
  | runtimeError (msg : String)
  deriving Repr, DecidableEq

/-- Modelled from the spec: the `packet` module (`NiimbotPacket`) is imported
by `printer.py` but its source is not in the tree.  Per the spec's data
model, a packet is `{ type: 1 byte, data: variable-length byte sequence }`. -/
structure NiimbotPacket where
  type : Nat
  data : List Nat
  deriving Repr, DecidableEq

/-- Modelled from the spec: the checksum algorithm is left open by the spec
("computed over type, length, and data", exact algorithm an open question),
so the codec is parameterised by an arbitrary checksum function
`cksum type length data`; its value is emitted as one byte (mod 256). -/
def NiimbotPacket.to_bytes (cksum : Nat → Nat → List Nat → Nat)
    (p : NiimbotPacket) : List Nat :=
  0x55 :: 0x55 :: p.type :: p.data.length ::
    (p.data ++ [cksum p.type p.data.length p.data % 256, 0xAA, 0xAA])

/-- Modelled from the spec: decoding fails when the leading two bytes are not
the fixed header, the trailing two bytes are not the fixed footer, the
declared length does not match the remaining byte count, or the checksum
does not verify. -/
def NiimbotPacket.from_bytes (cksum : Nat → Nat → List Nat → Nat)
    (bs : List Nat) : Option NiimbotPacket :=
  match bs with
  | 0x55 :: 0x55 :: t :: len :: rest =>
    if rest.length = len + 3 then
      let d := rest.take len
      if rest.drop (len + 1) = [0xAA, 0xAA] ∧
          rest.getD len 0 = cksum t len d % 256 then
        some ⟨t, d⟩
      else none
    else none
  | _ => none

/-! ## Bit packing of image rows (`PrinterClient._encode_image`) -/

/-- Value of a bit string read most-significant-bit first, as Python's
`int(line_data, 2)` computes it (`line_data` is a string of `0`/`1`
characters, one per pixel, `true` = ink). -/
def bitsToNat (l : List Bool) : Nat :=
  l.foldl (fun a b => 2 * a + (if b then 1 else 0)) 0

/-- Big-endian byte string of length `k` for `n < 256 ^ k` (the value
`int.to_bytes(k, "big")` produces when it does not overflow). -/
def natToBytesBE : Nat → Nat → List Nat
  | 0, _ => []
  | k + 1, n => n / 256 ^ k :: natToBytesBE k (n % 256 ^ k)

/-- Python's `n.to_bytes(k, "big")`: raises `OverflowError` (here `none`)
when `n` does not fit in `k` bytes. -/
def intToBytesBE (k n : Nat) : Option (List Nat) :=
  if n < 256 ^ k then some (natToBytesBE k n) else none

/-- The row pixel bytes of `_encode_image`:
`int(line_data, 2).to_bytes(math.ceil(img.width / 8), "big")`.
`int("", 2)` raises `ValueError`, so the empty row yields `none`. -/
def lineData (l : List Bool) : Option (List Nat) :=
  if l = [] then none else intToBytesBE ((l.length + 7) / 8) (bitsToNat l)

/-- Python's `struct.pack(">H", y)`: two big-endian bytes, `struct.error`
(here `none`) when the value exceeds 0xFFFF. -/
def packU16BE (y : Nat) : Option (List Nat) :=
  if y < 65536 then some [y / 256, y % 256] else none

/-- One row packet of `_encode_image`: header `struct.pack(">H3BB", y, 0, 0,
0, 1)` followed by the row's pixel bytes, packet type `0x85`. -/
def encodeRow (y : Nat) (row : List Bool) : Option NiimbotPacket := do
  let hdr ← packU16BE y
  let ld ← lineData row
  pure ⟨0x85, hdr ++ [0, 0, 0, 1] ++ ld⟩

/-- A raster image as handed to `_encode_image` after the
grayscale-invert-threshold step: `pix x y = true` means ink. -/
structure Raster where
  width : Nat
  height : Nat
  pix : Nat → Nat → Bool

/-- The pixels of row `y`, left to right, as `_encode_image` reads them. -/
def rowPixels (img : Raster) (y : Nat) : List Bool :=
  (List.range img.width).map (fun x => img.pix x y)

/-- `_encode_image`: one packet per row, `y` ascending from `0`. -/
def encode_image (img : Raster) : List (Option NiimbotPacket) :=
  (List.range img.height).map (fun y => encodeRow y (rowPixels img y))

/-- Most-significant-bit-first packing as the spec describes it: the row
occupies `⌈len/8⌉` bytes and pixel `x` occupies bit `7 - (x % 8)` of byte
`⌊x / 8⌋` (bits past the end of the row are `0`): byte `i` is the MSB-first
value of pixels `8*i .. 8*i+7`. -/
def msbPack (l : List Bool) : List Nat :=
  (List.range ((l.length + 7) / 8)).map (fun i =>
    bitsToNat ((List.range 8).map (fun j => l.getD (8 * i + j) false)))

/-- Total version of `lineData` (the value it yields whenever it does not
raise, i.e. for a nonempty row). -/
def lineDataT (l : List Bool) : List Nat :=
  natToBytesBE ((l.length + 7) / 8) (bitsToNat l)

/-- The row packet `_encode_image` yields for row `y` (total version, valid
for `y ≤ 0xFFFF` and a nonempty row). -/
def rowPacketT (y : Nat) (row : List Bool) : NiimbotPacket :=
  ⟨0x85, [y / 256, y % 256, 0, 0, 0, 1] ++ lineDataT row⟩

/-! ## Transports -/

/-- `TCPTransport.read`: loops on `socket.recv(length - len(data))` until
`length` bytes are accumulated; an empty chunk raises `ConnectionError`.
The socket is modelled as an oracle `recvs call requested` giving the chunk
the `call`-th `recv` returns; a kernel never returns more than requested,
which the model enforces with `take`. -/
def tcpReadGo (recvs : Nat → Nat → List Nat) (n : Nat)
    (callIdx : Nat) (acc : List Nat) : Except PyError (List Nat) :=
  if h : acc.length < n then
    if hc : (recvs callIdx (n - acc.length)).take (n - acc.length) = [] then
      .error .connectionError
    else
      tcpReadGo recvs n (callIdx + 1)
        (acc ++ (recvs callIdx (n - acc.length)).take (n - acc.length))
  else .ok acc
termination_by n - acc.length
decreasing_by
  have hb : 0 < ((recvs callIdx (n - acc.length)).take (n - acc.length)).length :=
    List.length_pos.mpr hc
  simp only [List.length_append]
  exact Nat.sub_lt_sub_left h (Nat.lt_add_of_pos_right hb)

/-- `TCPTransport.read(length)` starting from the empty accumulator. -/
def tcpRead (recvs : Nat → Nat → List Nat) (n : Nat) :
    Except PyError (List Nat) :=
  tcpReadGo recvs n 0 []

/-- `SerialTransport.read`: a single pass-through of `serial.Serial.read`,
which (with the configured 0.5 s timeout) returns up to `length` bytes —
modelled as an oracle `dev requested` truncated to the requested count. -/
def serialRead (dev : Nat → List Nat) (n : Nat) : List Nat :=
  (dev n).take n

/-- One enumerated serial port: `(device, description, hwid)` as yielded by
`serial.tools.list_ports.comports()`. -/
abbrev PortInfo := String × String × String

/-- The line `_detect_port` appends to its error message for one
enumerated candidate. -/
def portLine (c : PortInfo) : String :=
  "\x0a- " ++ c.1 ++ " : " ++ c.2.1 ++ " [" ++ c.2.2 ++ "]"

/-- The message built by `SerialTransport._detect_port` when more than one
port is enumerated, listing every candidate. -/
def tooManyPortsMsg (ports : List PortInfo) : String :=
  ports.foldl (fun m c => m ++ portLine c)
    "Too many serial ports, please select specific one:"

/-- `SerialTransport._detect_port` over the enumerated port list. -/
def detect_port (ports : List PortInfo) : Except PyError String :=
  if ports.length = 0 then .error (.runtimeError "No serial ports detected")
  else if ports.length > 1 then .error (.runtimeError (tooManyPortsMsg ports))
  else .ok ((ports.getD 0 ("", "", "")).1)

/-- `SerialTransport.__init__`: resolves `"auto"` through `_detect_port`
(once — a detection failure propagates immediately), otherwise uses the
explicit path. -/
def serialTransportInit (port : String) (ports : List PortInfo) :
    Except PyError String :=
  if port = "auto" then detect_port ports else .ok port

/-! ## The transaction engine (`PrinterClient._transceive`) -/

/-- The transport behaviour during one attempt of `_transceive`: the outcome
of the `write`, of the 4-byte header `read`, and of the
`read(data_length + 3)` (which may depend on the header's length byte). -/
structure Attempt where
  writeErr : Option PyError
  read1 : Except PyError (List Nat)
  read2 : Nat → Except PyError (List Nat)

/-- The body of one `_transceive` attempt (lines inside the `try`): write the
request, read and validate the 4-byte header, read `data_length + 3` more
bytes, decode the frame, and classify the response type against the
expected `respcode`. -/
def attemptBody (cksum : Nat → Nat → List Nat → Nat) (respcode : Nat)
    (a : Attempt) : Except PyError NiimbotPacket := do
  match a.writeErr with
  | some e => throw e
  | none =>
  match a.read1 with
  | .error e => throw e
  | .ok header =>
  if header.length ≠ 4 ∨ header.take 2 ≠ [0x55, 0x55] then throw .valueError
  else
  let dataLength := header.getD 3 0
  match a.read2 dataLength with
  | .error e => throw e
  | .ok rest =>
  if rest.length ≠ dataLength + 3 then throw .valueError
  else
  match NiimbotPacket.from_bytes cksum (header ++ rest) with
  | none => throw .valueError
  | some p =>
  if p.type = 219 then throw .valueError
  else if p.type = 0 then throw .notImplementedError
  else if p.type = respcode then pure p
  else throw .valueError

/-- `true` iff the attempt body raised (one of the exception classes the
retry loop catches: `ValueError`, `ConnectionError`,
`NotImplementedError`). -/
def attemptFails (cksum : Nat → Nat → List Nat → Nat) (respcode : Nat)
    (a : Attempt) : Bool :=
  match attemptBody cksum respcode a with
  | .error _ => true
  | .ok _ => false

/-- The retry loop of `_transceive`: `rem` attempts remain, `used` attempts
have been made (the oracle `atts` is consulted at index `used`).  Returns
the decoded packet or `none` once retries exhaust, together with the total
number of attempts made. -/
def transceiveGo (cksum : Nat → Nat → List Nat → Nat) (atts : Nat → Attempt)
    (respcode : Nat) : Nat → Nat → Option NiimbotPacket × Nat
  | 0, used => (none, used)
  | rem + 1, used =>
    match attemptBody cksum respcode (atts used) with
    | .ok p => (some p, used + 1)
    | .error _ =>
      if rem = 0 then (none, used + 1)
      else transceiveGo cksum atts respcode rem (used + 1)

/-- `_transceive(reqcode, data, respoffset)`: up to `max_retries = 3`
attempts at expected response type `respoffset + reqcode`; the request
payload `data` is written to the transport each attempt (the oracle models
the transport's replies). -/
def transceive (cksum : Nat → Nat → List Nat → Nat) (atts : Nat → Attempt)
    (reqcode : Nat) (_data : List Nat) (respoffset : Nat) :
    Option NiimbotPacket × Nat :=
  transceiveGo cksum atts (respoffset + reqcode) 3 0

/-! ## Request-issuing operations -/

/-- The value `get_info` returns for a found packet: serial numbers come
back as the payload's hex string (modelled as the raw bytes), soft/hard
versions as the big-endian integer divided by 100 (modelled as the
dividend), everything else as the big-endian integer. -/
inductive InfoValue where
  | serialHex (payload : List Nat)
  | versionHundredths (n : Nat)
  | num (n : Nat)
  deriving Repr, DecidableEq

/-- Big-endian integer value of a payload (`int.from_bytes(x.data, "big")`). -/
def packet_to_int (p : NiimbotPacket) : Nat :=
  p.data.foldl (fun a b => 256 * a + b) 0

/-- `PrinterClient.get_info(key)`: the only operation that null-checks the
`_transceive` result (`if packet := ...`), returning `None` when it is
missing. -/
def get_info (cksum : Nat → Nat → List Nat → Nat) (atts : Nat → Attempt)
    (key : Nat) : Option InfoValue :=
  match (transceive cksum atts 64 [key] key).1 with
  | none => none
  | some p =>
    if key = 11 then some (.serialHex p.data)
    else if key = 9 then some (.versionHundredths (packet_to_int p))
    else if key = 12 then some (.versionHundredths (packet_to_int p))
    else some (.num (packet_to_int p))

/-- The four fields `PrinterClient.heartbeat` extracts. -/
structure HeartbeatFields where
  closingstate : Option Nat
  powerlevel : Option Nat
  paperstate : Option Nat
  rfidreadstate : Option Nat
  deriving Repr, DecidableEq

/-- The `match len(packet.data)` of `heartbeat`: five known payload lengths,
each with its own byte offsets; any other length leaves all four fields
`None`. -/
def heartbeatDecode (d : List Nat) : HeartbeatFields :=
  match d.length with
  | 20 => ⟨none, none, some (d.getD 18 0), some (d.getD 19 0)⟩
  | 13 => ⟨some (d.getD 9 0), some (d.getD 10 0), some (d.getD 11 0),
           some (d.getD 12 0)⟩
  | 19 => ⟨some (d.getD 15 0), some (d.getD 16 0), some (d.getD 17 0),
           some (d.getD 18 0)⟩
  | 10 => ⟨some (d.getD 8 0), some (d.getD 9 0), none, some (d.getD 8 0)⟩
  | 9 => ⟨some (d.getD 8 0), none, none, none⟩
  | _ => ⟨none, none, none, none⟩

/-- `PrinterClient.heartbeat`: issues the heartbeat request and decodes the
payload.  When `_transceive` returns `None`, `len(packet.data)` raises
`AttributeError` — there is no null check. -/
def heartbeat (cksum : Nat → Nat → List Nat → Nat) (atts : Nat → Attempt) :
    Except PyError HeartbeatFields :=
  match (transceive cksum atts 220 [1] 1).1 with
  | none => .error .attributeError
  | some p => .ok (heartbeatDecode p.data)

/-- `PrinterClient.end_print`: `bool(packet.data[0])` with no null check —
`AttributeError` on a missing packet, `IndexError` on an empty payload. -/
def end_print (cksum : Nat → Nat → List Nat → Nat) (atts : Nat → Attempt) :
    Except PyError Bool :=
  match (transceive cksum atts 243 [1] 1).1 with
  | none => .error .attributeError
  | some p =>
    match p.data with
    | [] => .error .indexError
    | b :: _ => .ok (b ≠ 0)

/-! ## The unsolicited-read path (`PrinterClient._recv`) -/

/-- Outcome of the `while` loop of `_recv` under a step bound. -/
inductive RecvOut where
  | ok (pkts : List NiimbotPacket) (buf : List Nat)
  | raised (e : PyError)
  | fuelOut
  deriving Repr, DecidableEq

/-- The frame-extraction loop of `_recv`, bounded by `fuel` iterations:
while the buffer holds more than 4 bytes, compute the declared frame length
`buf[3] + 7`; if the whole frame is present, decode it (a decode failure
raises `ValueError`), append it, and delete it from the buffer — otherwise
the loop body changes nothing.  `fuelOut` means the loop was still running
after `fuel` iterations. -/
def recvLoop (cksum : Nat → Nat → List Nat → Nat) :
    Nat → List NiimbotPacket → List Nat → RecvOut
  | 0, acc, buf => if buf.length > 4 then .fuelOut else .ok acc buf
  | fuel + 1, acc, buf =>
    if buf.length > 4 then
      if buf.length ≥ buf.getD 3 0 + 7 then
        match NiimbotPacket.from_bytes cksum (buf.take (buf.getD 3 0 + 7)) with
        | none => .raised .valueError
        | some p => recvLoop cksum fuel (acc ++ [p]) (buf.drop (buf.getD 3 0 + 7))
      else recvLoop cksum fuel acc buf
    else .ok acc buf

/-! ## The print-job orchestrator (`PrinterClient.print_image`) -/

/-- One observable action of `print_image`: a request issued through
`_transceive` (one transaction, with its bounded retries inside), a
fire-and-forget row packet sent through `_send`, or a `time.sleep`
(milliseconds). -/
inductive Ev where
  | cmd (reqcode : Nat) (data : List Nat)
  | row (pkt : NiimbotPacket)
  | sleepMs (ms : Nat)
  deriving Repr, DecidableEq

/-- `struct.pack("H", n)` (native byte order, little-endian assumed):
`struct.error` when the value exceeds 0xFFFF. -/
def packU16LE (n : Nat) : Option (List Nat) :=
  if n < 65536 then some [n % 256, n / 256] else none

/-- The event list of `print_image(image, density, copies)`: the commands it
issues in order, each row packet followed by its 10 ms pacing sleep, and
the trailing 2 s settle sleep.  `none` models a raised exception (a failed
assertion in a setter, a `struct` overflow, or `int("", 2)` on a
zero-width image). -/
def print_image_trace (img : Raster) (density copies : Nat) :
    Option (List Ev) := do
  if ¬ (1 ≤ density ∧ density ≤ 5) then failure
  if ¬ copies ≤ 65535 then failure
  let copiesLE ← packU16LE copies
  let hBytes ← packU16BE img.height
  let wBytes ← packU16BE img.width
  let copiesBE ← packU16BE copies
  let rows ← (List.range img.height).mapM (fun y =>
    (encodeRow y (rowPixels img y)).map (fun p => [Ev.row p, Ev.sleepMs 10]))
  pure ([Ev.cmd 33 [density], Ev.cmd 35 [1],
         Ev.cmd 1 ([0] ++ copiesLE ++ [0, 0, 0, 0]), Ev.cmd 3 [1],
         Ev.cmd 19 (hBytes ++ wBytes ++ copiesBE)]
    ++ rows.flatten ++ [Ev.cmd 227 [1], Ev.sleepMs 2000])

/-- `true` iff the event is an END_PRINT (0xF3 = 243) request. -/
def isEndPrintEv : Ev → Bool
  | .cmd 243 _ => true
  | _ => false

/-! ## Concrete test fixtures (used by witnesses and counterexamples) -/

/-- A concrete checksum function (any function of type, length and data is
admissible; the theorems below hold for all of them). -/
def cksum0 : Nat → Nat → List Nat → Nat := fun _ _ _ => 0

/-- A transport stub whose every attempt fails: the `write` raises
`ConnectionError`. -/
def failAtts : Nat → Attempt :=
  fun _ => ⟨some .connectionError, .ok [], fun _ => .ok []⟩

/-- A transport stub attempt that succeeds, replying with the well-formed
frame `55 55 02 00 00 AA AA` (type 2, empty payload, `cksum0` checksum). -/
def okAtt : Attempt :=
  ⟨none, .ok [0x55, 0x55, 2, 0], fun _ => .ok [0, 0xAA, 0xAA]⟩

/-- A transport stub that fails on the first two attempts and succeeds on
the third. -/
def failFailOk : Nat → Attempt :=
  fun i => if i = 2 then okAtt else failAtts i

/-- A one-pixel, one-row all-ink raster. -/
def img1 : Raster := ⟨1, 1, fun _ _ => true⟩

/-- A 9-pixel-wide, one-row raster with alternating pixels. -/
def img9 : Raster := ⟨9, 1, fun x _ => x % 2 = 0⟩

/-!
# Theorems

Supporting lemmas first, then one theorem per claim (with witnesses and
counterexamples where the claim calls for them).
-/

theorem bitsToNat_foldl (t : List Bool) (a : Nat) :
    List.foldl (fun x b => 2 * x + (if b then 1 else 0)) a t
      = a * 2 ^ t.length + bitsToNat t := by
  induction t generalizing a with
  | nil => simp [bitsToNat]
  | cons b t ih =>
    simp only [List.foldl_cons, List.length_cons]
    rw [ih]
    conv_rhs => rw [bitsToNat, List.foldl_cons, ih]
    cases b <;> simp <;> ring

theorem bitsToNat_cons (b : Bool) (t : List Bool) :
    bitsToNat (b :: t) = (if b then 1 else 0) * 2 ^ t.length + bitsToNat t := by
  rw [bitsToNat, List.foldl_cons, bitsToNat_foldl]
  cases b <;> simp

theorem bitsToNat_append (l m : List Bool) :
    bitsToNat (l ++ m) = bitsToNat l * 2 ^ m.length + bitsToNat m := by
  rw [bitsToNat, List.foldl_append, ← bitsToNat, bitsToNat_foldl]

theorem bitsToNat_lt (l : List Bool) : bitsToNat l < 2 ^ l.length := by
  induction l with
  | nil => simp [bitsToNat]
  | cons b t ih =>
    rw [bitsToNat_cons]
    cases b <;> simp [pow_succ] <;> omega

theorem bitsToNat_replicate_false (p : Nat) :
    bitsToNat (List.replicate p false) = 0 := by
  induction p with
  | zero => simp [bitsToNat]
  | succ p ih => rw [List.replicate_succ, bitsToNat_cons, ih]; simp

theorem natToBytesBE_length (k : Nat) : ∀ n, (natToBytesBE k n).length = k := by
  induction k with
  | zero => intro n; simp [natToBytesBE]
  | succ k ih => intro n; simp [natToBytesBE, ih]

theorem getD_drop {α : Type} (l : List α) (n m : Nat) (d : α) :
    (l.drop n).getD m d = l.getD (n + m) d := by
  simp [List.getD_eq_getElem?_getD, List.getElem?_drop]

theorem range_map_getD_eq_take {α : Type} (l : List α) (d : α) (m : Nat)
    (h : m ≤ l.length) :
    (List.range m).map (fun j => l.getD j d) = l.take m := by
  induction m with
  | zero => simp
  | succ m ih =>
    rw [List.range_succ, List.map_append, ih (by omega), List.take_succ]
    have hm : m < l.length := by omega
    simp [List.getD_eq_getElem?_getD, List.getElem?_eq_getElem hm]

theorem msbPack_nil : msbPack [] = [] := by
  simp [msbPack]

theorem map_range_succ_head {α : Type} (K : Nat) (f : Nat → α) :
    (List.range (K + 1)).map f = f 0 :: (List.range K).map (fun i => f (i + 1)) := by
  rw [List.range_succ_eq_map, List.map_cons, List.map_map]
  rfl

theorem msbPack_cons8 (l : List Bool) (h : 8 ≤ l.length) :
    msbPack l = bitsToNat (l.take 8) :: msbPack (l.drop 8) := by
  unfold msbPack
  have hlen : (l.length + 7) / 8 = ((l.drop 8).length + 7) / 8 + 1 := by
    simp only [List.length_drop]; omega
  rw [hlen, map_range_succ_head]
  congr 1
  · congr 1
    simpa using range_map_getD_eq_take l false 8 h
  · apply List.map_congr_left
    intro i _
    congr 1
    apply List.map_congr_left
    intro j _
    rw [getD_drop]
    congr 1
    omega

theorem pow_two_eight_mul (k : Nat) : (2 : Nat) ^ (8 * k) = 256 ^ k := by
  rw [Nat.pow_mul]

theorem natToBytesBE_eq_msbPack (k : Nat) :
    ∀ l : List Bool, l.length = 8 * k →
      natToBytesBE k (bitsToNat l) = msbPack l := by
  induction k with
  | zero =>
    intro l hl
    have : l = [] := List.length_eq_zero.mp (by omega)
    subst this
    rw [msbPack_nil]
    rfl
  | succ k ih =>
    intro l hl
    have h8 : 8 ≤ l.length := by omega
    have hdlen : (l.drop 8).length = 8 * k := by
      simp only [List.length_drop]; omega
    have hpos : 0 < (256 : Nat) ^ k := Nat.pos_pow_of_pos k (by omega)
    have hlt : bitsToNat (l.drop 8) < 256 ^ k := by
      have := bitsToNat_lt (l.drop 8)
      rwa [hdlen, pow_two_eight_mul] at this
    have hval : bitsToNat l =
        bitsToNat (l.drop 8) + bitsToNat (l.take 8) * 256 ^ k := by
      conv_lhs => rw [← List.take_append_drop 8 l]
      rw [bitsToNat_append, hdlen, pow_two_eight_mul]
      omega
    rw [msbPack_cons8 l h8]
    show natToBytesBE (k + 1) (bitsToNat l) = _
    simp only [natToBytesBE]
    congr 1
    · rw [hval, Nat.add_mul_div_right _ _ hpos, Nat.div_eq_of_lt hlt, Nat.zero_add]
    · rw [hval, Nat.add_mul_mod_self_right, Nat.mod_eq_of_lt hlt, ih _ hdlen]

theorem lineData_eq_some (row : List Bool) (hrow : row ≠ []) :
    lineData row = some (lineDataT row) := by
  have hlt : bitsToNat row < 256 ^ ((row.length + 7) / 8) := by
    have h1 := bitsToNat_lt row
    have h2 : (2 : Nat) ^ row.length ≤ 2 ^ (8 * ((row.length + 7) / 8)) :=
      Nat.pow_le_pow_right (by omega) (by omega)
    rw [pow_two_eight_mul] at h2
    omega
  simp [lineData, hrow, intToBytesBE, hlt, lineDataT]

theorem encodeRow_eq_some (y : Nat) (row : List Bool) (hy : y < 65536)
    (hrow : row ≠ []) :
    encodeRow y row = some (rowPacketT y row) := by
  simp [encodeRow, packU16BE, hy, lineData_eq_some row hrow, rowPacketT]

theorem lineDataT_eq_msbPack (row : List Bool) :
    lineDataT row =
      msbPack (List.replicate (8 * ((row.length + 7) / 8) - row.length) false
        ++ row) := by
  set k := (row.length + 7) / 8 with hk
  set p := 8 * k - row.length with hp
  have hlen : (List.replicate p false ++ row).length = 8 * k := by
    simp only [List.length_append, List.length_replicate]
    omega
  have hval : bitsToNat (List.replicate p false ++ row) = bitsToNat row := by
    rw [bitsToNat_append, bitsToNat_replicate_false]
    ring
  have hk2 : ((List.replicate p false ++ row).length + 7) / 8 = k := by
    rw [hlen]; omega
  rw [← natToBytesBE_eq_msbPack k _ hlen, hval, lineDataT]

/-- C2 counterexample: for the one-pixel row (width 1, not a multiple of 8)
the emitted payload is not the header followed by the MSB-first packing the
claim describes (the code emits byte 0x01, the claim byte 0x80). -/
theorem row_payload_claim_false :
    encodeRow 0 [true] ≠
      some ⟨0x85, [0, 0, 0, 0, 0, 1] ++ msbPack [true]⟩ := by
  decide

/-- C2 (amended): each row packet payload is the big-endian header
(rowIndex u16, three zero bytes, trailing 1) followed by the row packed
MSB-first into ceil(width/8) bytes — but right-aligned: the packing is that
of the row preceded by 8*ceil(w/8) - w zero pad bits, so pixel x occupies
bit 7 - ((pad + x) % 8) of byte (pad + x) / 8.  This coincides with the
claim exactly when the width is a multiple of 8. -/
theorem row_payload_packing (y : Nat) (row : List Bool) (hy : y < 65536)
    (hrow : row ≠ []) :
    encodeRow y row = some ⟨0x85, [y / 256, y % 256, 0, 0, 0, 1] ++
      msbPack (List.replicate (8 * ((row.length + 7) / 8) - row.length) false
        ++ row)⟩ := by
  rw [encodeRow_eq_some y row hy hrow, rowPacketT, lineDataT_eq_msbPack]

/-- Witness for C2: the amended packing evaluated on row 5 = [ink, blank,
ink] (width 3: 5 pad bits, payload byte 0x05). -/
theorem row_payload_packing_witness :
    encodeRow 5 [true, false, true] = some ⟨0x85, [0, 5, 0, 0, 0, 1] ++
      msbPack (List.replicate 5 false ++ [true, false, true])⟩ := by
  have h := row_payload_packing 5 [true, false, true] (by omega) (by decide)
  simpa using h

/-- C7: for every raster with width at least 1, the encoder yields one
packet per row, the row index ascending from 0 carried big-endian in the
header, and the pixel data of every row occupies exactly ceil(width/8)
bytes. -/
theorem encode_image_rows (img : Raster) (hw : 1 ≤ img.width) :
    (encode_image img).length = img.height ∧
    ∀ y, y < img.height → y < 65536 →
      (encode_image img).getD y none = some (rowPacketT y (rowPixels img y)) ∧
      (lineDataT (rowPixels img y)).length = (img.width + 7) / 8 := by
  constructor
  · simp [encode_image]
  · intro y hy hy16
    have hrowlen : (rowPixels img y).length = img.width := by
      simp [rowPixels]
    have hrow : rowPixels img y ≠ [] := by
      intro hnil
      rw [hnil] at hrowlen
      simp at hrowlen
      omega
    constructor
    · rw [encode_image, List.getD_eq_getElem?_getD, List.getElem?_map,
        List.getElem?_range hy]
      simp [encodeRow_eq_some y _ hy16 hrow]
    · rw [lineDataT, natToBytesBE_length, hrowlen]

/-- Witness for C7: the single-row rasters of widths 1 and 9 (1 and 2 data
bytes per row respectively). -/
theorem encode_image_rows_witness :
    ((encode_image img1).length = 1 ∧
      (encode_image img1).getD 0 none =
        some (rowPacketT 0 (rowPixels img1 0))) ∧
    (lineDataT (rowPixels img9 0)).length = 2 := by
  refine ⟨⟨(encode_image_rows img1 (by decide)).1, ?_⟩, ?_⟩
  · exact ((encode_image_rows img1 (by decide)).2 0 (by decide) (by decide)).1
  · exact ((encode_image_rows img9 (by decide)).2 0 (by decide) (by decide)).2

/-- C8: encoding a packet (any type in 0–255, any payload of at most 255
bytes) and decoding the produced wire bytes reproduces the packet exactly,
for every checksum function. -/
theorem packet_roundtrip (cksum : Nat → Nat → List Nat → Nat)
    (p : NiimbotPacket) (ht : p.type ≤ 255) (hl : p.data.length ≤ 255)
    (hd : ∀ b ∈ p.data, b ≤ 255) :
    NiimbotPacket.from_bytes cksum (NiimbotPacket.to_bytes cksum p) = some p := by
  obtain ⟨t, d⟩ := p
  simp only [NiimbotPacket.to_bytes, NiimbotPacket.from_bytes]
  have h1 : (d ++ [cksum t d.length d % 256, 0xAA, 0xAA]).length = d.length + 3 := by
    simp
  rw [if_pos h1]
  have h2 : (d ++ [cksum t d.length d % 256, 0xAA, 0xAA]).take d.length = d :=
    List.take_left d _
  have h3 : (d ++ [cksum t d.length d % 256, 0xAA, 0xAA]).drop (d.length + 1)
      = [0xAA, 0xAA] := by
    have := @List.drop_append Nat d [cksum t d.length d % 256, 0xAA, 0xAA] 1
    simpa using this
  have h4 : (d ++ [cksum t d.length d % 256, 0xAA, 0xAA]).getD d.length 0
      = cksum t d.length d % 256 := by
    rw [List.getD_append_right _ _ _ _ (le_refl _)]
    simp
  rw [h2, h3, h4]
  simp

/-- Witness for C8: round trip of the concrete packet (type 7, payload
[1, 2, 3]) under a concrete checksum function. -/
theorem packet_roundtrip_witness :
    NiimbotPacket.from_bytes cksum0
      (NiimbotPacket.to_bytes cksum0 ⟨7, [1, 2, 3]⟩) = some ⟨7, [1, 2, 3]⟩ :=
  packet_roundtrip cksum0 ⟨7, [1, 2, 3]⟩ (by decide) (by decide) (by decide)

/-! ## Transaction engine lemmas -/

theorem transceiveGo_succ (cksum : Nat → Nat → List Nat → Nat)
    (atts : Nat → Attempt) (rc rem used : Nat) :
    transceiveGo cksum atts rc (rem + 1) used =
      match attemptBody cksum rc (atts used) with
      | .ok p => (some p, used + 1)
      | .error _ =>
        if rem = 0 then (none, used + 1)
        else transceiveGo cksum atts rc rem (used + 1) := rfl

theorem transceiveGo_error_step (cksum : Nat → Nat → List Nat → Nat)
    (atts : Nat → Attempt) (rc rem used : Nat) (e : PyError)
    (h : attemptBody cksum rc (atts used) = .error e) :
    transceiveGo cksum atts rc (rem + 2) used =
      transceiveGo cksum atts rc (rem + 1) (used + 1) := by
  rw [show rem + 2 = (rem + 1) + 1 from rfl, transceiveGo_succ, h]
  simp

theorem transceiveGo_error_last (cksum : Nat → Nat → List Nat → Nat)
    (atts : Nat → Attempt) (rc used : Nat) (e : PyError)
    (h : attemptBody cksum rc (atts used) = .error e) :
    transceiveGo cksum atts rc 1 used = (none, used + 1) := by
  rw [show (1 : Nat) = 0 + 1 from rfl, transceiveGo_succ, h]
  simp

theorem transceiveGo_ok (cksum : Nat → Nat → List Nat → Nat)
    (atts : Nat → Attempt) (rc rem used : Nat) (p : NiimbotPacket)
    (h : attemptBody cksum rc (atts used) = .ok p) :
    transceiveGo cksum atts rc (rem + 1) used = (some p, used + 1) := by
  rw [transceiveGo_succ, h]

theorem attemptFails_iff (cksum : Nat → Nat → List Nat → Nat) (rc : Nat)
    (a : Attempt) :
    attemptFails cksum rc a = true ↔ ∃ e, attemptBody cksum rc a = .error e := by
  unfold attemptFails
  cases h : attemptBody cksum rc a <;> simp

theorem transceiveGo_three_fail (cksum : Nat → Nat → List Nat → Nat)
    (atts : Nat → Attempt) (rc : Nat)
    (h : ∀ i, i < 3 → attemptFails cksum rc (atts i) = true) :
    transceiveGo cksum atts rc 3 0 = (none, 3) := by
  obtain ⟨e0, h0⟩ := (attemptFails_iff cksum rc (atts 0)).mp (h 0 (by omega))
  obtain ⟨e1, h1⟩ := (attemptFails_iff cksum rc (atts 1)).mp (h 1 (by omega))
  obtain ⟨e2, h2⟩ := (attemptFails_iff cksum rc (atts 2)).mp (h 2 (by omega))
  rw [show (3 : Nat) = 1 + 2 from rfl,
    transceiveGo_error_step cksum atts rc 1 0 e0 h0,
    show 1 + 1 = 0 + 2 from rfl,
    transceiveGo_error_step cksum atts rc 0 (0 + 1) e1 h1,
    transceiveGo_error_last cksum atts rc (0 + 1 + 1) e2 h2]

theorem transceiveGo_congr (cksum : Nat → Nat → List Nat → Nat)
    (a1 a2 : Nat → Attempt) (rc : Nat) :
    ∀ rem used, (∀ i, used ≤ i → i < used + rem → a1 i = a2 i) →
      transceiveGo cksum a1 rc rem used = transceiveGo cksum a2 rc rem used := by
  intro rem
  induction rem with
  | zero => intro used _; rfl
  | succ k ih =>
    intro used hag
    rw [transceiveGo_succ, transceiveGo_succ,
      hag used (le_refl _) (by omega)]
    cases hb : attemptBody cksum rc (a2 used) with
    | ok p => rfl
    | error e =>
      by_cases hk : k = 0
      · simp [hk]
      · simp only [if_neg hk]
        exact ih (used + 1) (fun i hi1 hi2 => hag i (by omega) (by omega))

/-- C3: the transaction engine attempts the send/receive cycle at most 3
times: with a transport stub failing on attempts 0 and 1 and succeeding on
attempt 2, transceive returns the decoded packet after exactly 3 attempts;
with a stub failing on every attempt it returns no result after exactly 3
attempts, and its outcome is independent of what the stub would do on any
attempt beyond the third (no further attempts are made). -/
theorem transceive_retry_policy (cksum : Nat → Nat → List Nat → Nat)
    (a1 a2 a3 : Nat → Attempt) (reqcode : Nat) (data : List Nat)
    (respoffset : Nat) (p : NiimbotPacket)
    (h0 : ∃ e, attemptBody cksum (respoffset + reqcode) (a1 0) = .error e)
    (h1 : ∃ e, attemptBody cksum (respoffset + reqcode) (a1 1) = .error e)
    (h2 : attemptBody cksum (respoffset + reqcode) (a1 2) = .ok p)
    (hf : ∀ i, i < 3 → attemptFails cksum (respoffset + reqcode) (a2 i) = true)
    (hag : ∀ i, i < 3 → a2 i = a3 i) :
    transceive cksum a1 reqcode data respoffset = (some p, 3) ∧
    transceive cksum a2 reqcode data respoffset = (none, 3) ∧
    transceive cksum a3 reqcode data respoffset = (none, 3) := by
  obtain ⟨e0, h0⟩ := h0
  obtain ⟨e1, h1⟩ := h1
  refine ⟨?_, ?_, ?_⟩
  · show transceiveGo cksum a1 (respoffset + reqcode) 3 0 = (some p, 3)
    rw [show (3 : Nat) = 1 + 2 from rfl,
      transceiveGo_error_step cksum a1 _ 1 0 e0 h0,
      show 1 + 1 = 0 + 2 from rfl,
      transceiveGo_error_step cksum a1 _ 0 (0 + 1) e1 h1,
      transceiveGo_ok cksum a1 _ 0 (0 + 1 + 1) p h2]
  · exact transceiveGo_three_fail cksum a2 _ hf
  · show transceiveGo cksum a3 (respoffset + reqcode) 3 0 = (none, 3)
    rw [← transceiveGo_congr cksum a2 a3 _ 3 0
      (fun i _ hi2 => hag i (by omega))]
    exact transceiveGo_three_fail cksum a2 _ hf

/-- Witness for C3: a concrete stub failing twice (write raises
ConnectionError) then replying with the frame 55 55 02 00 00 AA AA, and a
concrete always-failing stub. -/
theorem transceive_retry_policy_witness :
    transceive cksum0 failFailOk 1 [] 1 = (some ⟨2, []⟩, 3) ∧
    transceive cksum0 failAtts 1 [] 1 = (none, 3) ∧
    transceive cksum0 failAtts 1 [] 1 = (none, 3) :=
  transceive_retry_policy cksum0 failFailOk failAtts failAtts 1 [] 1 ⟨2, []⟩
    ⟨.connectionError, rfl⟩ ⟨.connectionError, rfl⟩ rfl
    (by decide) (fun i _ => rfl)

/-- C1 counterexample: with a transport whose every attempt fails,
`heartbeat` — a request-issuing operation — raises AttributeError
(`len(packet.data)` on the `None` that `_transceive` returned) instead of
returning no result to its caller; the retries were indeed exhausted, as
the first conjunct shows. -/
theorem heartbeat_raises_on_exhaustion :
    (transceive cksum0 failAtts 220 [1] 1).1 = none ∧
    heartbeat cksum0 failAtts = .error .attributeError := ⟨rfl, rfl⟩

/-- C1 (amended): when the bounded retries are exhausted, `_transceive`
itself returns `None` (after exactly 3 attempts) rather than raising; of
the request-issuing operations only `get_info` null-checks that result and
passes `None` on to its caller — the others (here `heartbeat` and
`end_print`; the RFID query, the setters, the remaining print lifecycle
commands and the status query behave the same way) dereference the missing
packet and raise AttributeError. -/
theorem retry_exhaustion_behavior (cksum : Nat → Nat → List Nat → Nat)
    (atts : Nat → Attempt) (key : Nat)
    (hg : ∀ i, i < 3 → attemptFails cksum (key + 64) (atts i) = true)
    (hh : ∀ i, i < 3 → attemptFails cksum 221 (atts i) = true)
    (he : ∀ i, i < 3 → attemptFails cksum 244 (atts i) = true) :
    transceive cksum atts 220 [1] 1 = (none, 3) ∧
    get_info cksum atts key = none ∧
    heartbeat cksum atts = .error .attributeError ∧
    end_print cksum atts = .error .attributeError := by
  have hhb : transceiveGo cksum atts 221 3 0 = (none, 3) :=
    transceiveGo_three_fail cksum atts 221 hh
  have hgi : transceiveGo cksum atts (key + 64) 3 0 = (none, 3) :=
    transceiveGo_three_fail cksum atts (key + 64) hg
  have hep : transceiveGo cksum atts 244 3 0 = (none, 3) :=
    transceiveGo_three_fail cksum atts 244 he
  refine ⟨?_, ?_, ?_, ?_⟩
  · show transceiveGo cksum atts (1 + 220) 3 0 = (none, 3)
    exact hhb
  · unfold get_info
    have h1 : (transceive cksum atts 64 [key] key).1 = none := by
      show (transceiveGo cksum atts (key + 64) 3 0).1 = none
      rw [hgi]
    rw [h1]
  · unfold heartbeat
    have h1 : (transceive cksum atts 220 [1] 1).1 = none := by
      show (transceiveGo cksum atts (1 + 220) 3 0).1 = none
      rw [show 1 + 220 = 221 from rfl, hhb]
    rw [h1]
  · unfold end_print
    have h1 : (transceive cksum atts 243 [1] 1).1 = none := by
      show (transceiveGo cksum atts (1 + 243) 3 0).1 = none
      rw [show 1 + 243 = 244 from rfl, hep]
    rw [h1]

/-- Witness for C1: the always-failing concrete stub, `get_info` queried
with the battery key (10). -/
theorem retry_exhaustion_behavior_witness :
    transceive cksum0 failAtts 220 [1] 1 = (none, 3) ∧
    get_info cksum0 failAtts 10 = none ∧
    heartbeat cksum0 failAtts = .error .attributeError ∧
    end_print cksum0 failAtts = .error .attributeError :=
  retry_exhaustion_behavior cksum0 failAtts 10 (by decide) (by decide)
    (by decide)

/-- C6 counterexample: for the known payload length 10 the decoder does not
place all four fields at distinct offsets: paper-state is left unset (not
placed at any offset), and RFID-read-state is read from the same offset
(8) as closing-state. -/
theorem heartbeat_length10_fields :
    heartbeatDecode (List.range 10) = ⟨some 8, some 9, none, some 8⟩ := by
  decide

/-- C6 (amended): the heartbeat decoder branches on exactly the five payload lengths
20, 19, 13, 10 and 9, extracting closing-state, power-level, paper-state
and RFID-read-state from the byte offsets listed below (a field not listed
for a length stays unset); a payload of any other length leaves all four
fields unset. -/
theorem heartbeat_decode_lengths (d : List Nat) :
    (d.length ∉ ([9, 10, 13, 19, 20] : List Nat) →
      heartbeatDecode d = ⟨none, none, none, none⟩) ∧
    (d.length = 20 →
      heartbeatDecode d = ⟨none, none, some (d.getD 18 0), some (d.getD 19 0)⟩) ∧
    (d.length = 19 →
      heartbeatDecode d = ⟨some (d.getD 15 0), some (d.getD 16 0),
        some (d.getD 17 0), some (d.getD 18 0)⟩) ∧
    (d.length = 13 →
      heartbeatDecode d = ⟨some (d.getD 9 0), some (d.getD 10 0),
        some (d.getD 11 0), some (d.getD 12 0)⟩) ∧
    (d.length = 10 →
      heartbeatDecode d = ⟨some (d.getD 8 0), some (d.getD 9 0), none,
        some (d.getD 8 0)⟩) ∧
    (d.length = 9 →
      heartbeatDecode d = ⟨some (d.getD 8 0), none, none, none⟩) := by
  refine ⟨?_, ?_, ?_, ?_, ?_, ?_⟩ <;> intro h
  · unfold heartbeatDecode
    split <;> simp_all
  all_goals simp [heartbeatDecode, h]

/-- Witness for C6: an unknown length (15) leaves all four fields unset; a
20-byte payload places paper-state at offset 18 and RFID-read-state at
offset 19. -/
theorem heartbeat_decode_lengths_witness :
    heartbeatDecode (List.replicate 15 7) = ⟨none, none, none, none⟩ ∧
    heartbeatDecode (List.range 20) = ⟨none, none, some 18, some 19⟩ := by
  constructor
  · exact (heartbeat_decode_lengths (List.replicate 15 7)).1 (by decide)
  · have h := (heartbeat_decode_lengths (List.range 20)).2.1 (by decide)
    simpa using h

/-! ## Transport read theorems -/

theorem tcpReadGo_spec (recvs : Nat → Nat → List Nat) (n : Nat) :
    ∀ m idx acc, n - acc.length ≤ m → acc.length ≤ n →
      (∃ bs, tcpReadGo recvs n idx acc = .ok bs ∧ bs.length = n) ∨
      tcpReadGo recvs n idx acc = .error .connectionError := by
  intro m
  induction m with
  | zero =>
    intro idx acc hm hle
    left
    refine ⟨acc, ?_, by omega⟩
    unfold tcpReadGo
    rw [dif_neg (by omega)]
  | succ k ih =>
    intro idx acc hm hle
    by_cases h : acc.length < n
    · rw [tcpReadGo, dif_pos h]
      by_cases hc : (recvs idx (n - acc.length)).take (n - acc.length) = []
      · rw [dif_pos hc]
        right
        rfl
      · rw [dif_neg hc]
        have hclen : ((recvs idx (n - acc.length)).take (n - acc.length)).length
            ≤ n - acc.length := by
          rw [List.length_take]
          exact Nat.min_le_left _ _
        have hcpos : 0 <
            ((recvs idx (n - acc.length)).take (n - acc.length)).length :=
          List.length_pos.mpr hc
        exact ih (idx + 1) _ (by simp only [List.length_append]; omega)
          (by simp only [List.length_append]; omega)
    · left
      refine ⟨acc, ?_, by omega⟩
      rw [tcpReadGo, dif_neg h]

/-- C5 counterexample: a serial device that delivers a single byte for a
4-byte read makes `SerialTransport.read(4)` return 1 byte, without any
failure (the pyserial read simply times out short and the method passes
the result through). -/
theorem serial_read_short :
    serialRead (fun _ => [0x55]) 4 = [0x55] ∧
    (serialRead (fun _ => [0x55]) 4).length ≠ 4 := by
  constructor <;> decide

/-- C5 (amended): the stream (TCP) transport's read loops on the receive
primitive and returns exactly n bytes or raises ConnectionError (on a
zero-byte chunk); the serial transport's read is a single pass-through of
the device read and may return fewer than n bytes (never more) without
failing. -/
theorem transport_read_exact (recvs : Nat → Nat → List Nat)
    (dev : Nat → List Nat) (n : Nat) :
    ((∃ bs, tcpRead recvs n = .ok bs ∧ bs.length = n) ∨
      tcpRead recvs n = .error .connectionError) ∧
    (serialRead dev n).length ≤ n := by
  constructor
  · exact tcpReadGo_spec recvs n n 0 [] (by simp) (by simp)
  · rw [serialRead, List.length_take]
    exact Nat.min_le_left _ _

/-- Witness for C5: a receive oracle that always yields one byte satisfies
the TCP exactness disjunction at n = 4, and the short serial device read
stays within the requested count. -/
theorem transport_read_exact_witness :
    ((∃ bs, tcpRead (fun _ _ => [7]) 4 = .ok bs ∧ bs.length = 4) ∨
      tcpRead (fun _ _ => [7]) 4 = .error .connectionError) ∧
    (serialRead (fun _ => [0x42]) 4).length ≤ 4 :=
  transport_read_exact (fun _ _ => [7]) (fun _ => [0x42]) 4

/-! ## Serial port auto-detection theorems -/

theorem foldl_portLine_data (l : List PortInfo) (init : String) :
    (l.foldl (fun m c => m ++ portLine c) init).data =
      init.data ++ (l.map (fun c => (portLine c).data)).flatten := by
  induction l generalizing init with
  | nil => simp
  | cons c t ih =>
    rw [List.foldl_cons, ih, List.map_cons, List.flatten_cons,
      String.data_append, List.append_assoc]

/-- C9: serial auto-detection over the enumerated port list: zero devices
is a fatal "no device" RuntimeError, more than one is a fatal RuntimeError
whose message names every candidate device, exactly one device is selected
automatically; the `"auto"` construction path surfaces the detection
outcome directly (a failure is immediate and not retried). -/
theorem detect_port_spec (ports : List PortInfo) :
    (ports.length = 0 →
      detect_port ports = .error (.runtimeError "No serial ports detected")) ∧
    (1 < ports.length →
      detect_port ports = .error (.runtimeError (tooManyPortsMsg ports)) ∧
      ∀ c ∈ ports, ∃ pre post,
        (tooManyPortsMsg ports).data = pre ++ c.1.data ++ post) ∧
    (∀ p, ports = [p] → detect_port ports = .ok p.1) ∧
    serialTransportInit "auto" ports = detect_port ports := by
  refine ⟨?_, ⟨?_, ?_, ?_⟩⟩
  · intro h
    rw [detect_port, if_pos h]
  · intro h
    constructor
    · rw [detect_port, if_neg (by omega), if_pos (by omega)]
    · intro c hc
      obtain ⟨l1, l2, hsplit⟩ := List.append_of_mem hc
      refine ⟨"Too many serial ports, please select specific one:".data ++
        (l1.map (fun c => (portLine c).data)).flatten ++ "\x0a- ".data,
        (" : " ++ c.2.1 ++ " [" ++ c.2.2 ++ "]").data ++
        (l2.map (fun c => (portLine c).data)).flatten, ?_⟩
      rw [tooManyPortsMsg, foldl_portLine_data, hsplit, List.map_append,
        List.map_cons, List.flatten_append, List.flatten_cons]
      simp only [portLine, String.data_append, List.append_assoc]
  · intro p hp
    subst hp
    rfl
  · rfl

/-- Witness for C9: zero candidates, two concrete candidates (both named in
the message), and one concrete candidate (selected). -/
theorem detect_port_spec_witness :
    detect_port [] = .error (.runtimeError "No serial ports detected") ∧
    (detect_port [("pa", "da", "ha"), ("pb", "db", "hb")] =
      .error (.runtimeError
        (tooManyPortsMsg [("pa", "da", "ha"), ("pb", "db", "hb")])) ∧
      ∃ pre post, (tooManyPortsMsg
        [("pa", "da", "ha"), ("pb", "db", "hb")]).data =
          pre ++ "pb".data ++ post) ∧
    detect_port [("pa", "da", "ha")] = .ok "pa" := by
  refine ⟨(detect_port_spec []).1 rfl, ⟨?_, ?_⟩, ?_⟩
  · exact ((detect_port_spec _).2.1 (by decide)).1
  · exact ((detect_port_spec
      [("pa", "da", "ha"), ("pb", "db", "hb")]).2.1 (by decide)).2
      ("pb", "db", "hb") (by simp)
  · exact (detect_port_spec _).2.2.1 ("pa", "da", "ha") rfl

/-! ## Unsolicited-read loop theorems -/

/-- C10: the frame-extraction loop of `_recv` does not terminate when the
buffer holds more than 4 bytes but fewer than one complete frame
(`buf[3] + 7` bytes): for every iteration bound the loop is still running,
because the body's length test fails and no state changes.  This refutes
the claimed termination (and contradicts the intended incremental
buffering of partial frames). -/
theorem recv_partial_frame_spins (cksum : Nat → Nat → List Nat → Nat)
    (fuel : Nat) :
    ∀ acc buf, 4 < buf.length → buf.length < buf.getD 3 0 + 7 →
      recvLoop cksum fuel acc buf = .fuelOut := by
  induction fuel with
  | zero =>
    intro acc buf h4 hlt
    simp [recvLoop, h4]
  | succ k ih =>
    intro acc buf h4 hlt
    show recvLoop cksum (k + 1) acc buf = .fuelOut
    rw [recvLoop, if_pos h4, if_neg (by omega)]
    exact ih acc buf h4 hlt

/-- Witness for C10: the 5-byte buffer 55 55 DC 0A 00 (a frame declaring 10
data bytes, so a full frame needs 17 bytes): after 1000 iterations the
loop of `_recv` is still running. -/
theorem recv_partial_frame_spins_witness :
    recvLoop cksum0 1000 [] [0x55, 0x55, 0xDC, 0x0A, 0x00] = .fuelOut :=
  recv_partial_frame_spins cksum0 1000 [] [0x55, 0x55, 0xDC, 0x0A, 0x00]
    (by decide) (by decide)

/-! ## Print-job orchestration theorems -/

theorem mapM_eq_some_map {α β : Type} (l : List α) (f : α → Option β)
    (g : α → β) (h : ∀ a ∈ l, f a = some (g a)) :
    l.mapM f = some (l.map g) := by
  induction l with
  | nil => rfl
  | cons a t ih =>
    rw [List.mapM_cons, h a (by simp), ih (fun b hb => h b (by simp [hb]))]
    rfl

/-- C4 counterexample: the complete command trace of a one-pixel print job
contains no END_PRINT (0xF3) request at all — `print_image` stops at
END_PAGE_PRINT and the settle delay. -/
theorem print_image_no_end_print :
    ∃ t, print_image_trace img1 3 1 = some t ∧
      t.all (fun e => ¬ isEndPrintEv e) = true := by
  refine ⟨[Ev.cmd 33 [3], Ev.cmd 35 [1], Ev.cmd 1 [0, 1, 0, 0, 0, 0, 0],
    Ev.cmd 3 [1], Ev.cmd 19 [0, 1, 0, 1, 0, 1],
    Ev.row ⟨0x85, [0, 0, 0, 0, 0, 1, 1]⟩, Ev.sleepMs 10,
    Ev.cmd 227 [1], Ev.sleepMs 2000], by decide, by decide⟩

/-- C4 (amended): for every print job the orchestrator issues exactly, in
order: set density, set label type (type code 1), start print (carrying the
copy count), start page print, set dimensions (height, width, copies), all
row packets in ascending row order (each with its fixed pacing delay),
end page print, and a fixed post-completion settle delay.  No end-print
command is issued. -/
theorem print_image_sequence (img : Raster) (density copies : Nat)
    (hd1 : 1 ≤ density) (hd5 : density ≤ 5) (hc : copies ≤ 65535)
    (hw1 : 1 ≤ img.width) (hw : img.width ≤ 65535) (hh : img.height ≤ 65535) :
    print_image_trace img density copies = some (
      [Ev.cmd 33 [density], Ev.cmd 35 [1],
       Ev.cmd 1 [0, copies % 256, copies / 256, 0, 0, 0, 0], Ev.cmd 3 [1],
       Ev.cmd 19 [img.height / 256, img.height % 256, img.width / 256,
         img.width % 256, copies / 256, copies % 256]]
      ++ ((List.range img.height).map (fun y =>
            [Ev.row (rowPacketT y (rowPixels img y)), Ev.sleepMs 10])).flatten
      ++ [Ev.cmd 227 [1], Ev.sleepMs 2000]) := by
  have h65 : copies < 65536 := by omega
  have hhh : img.height < 65536 := by omega
  have hww : img.width < 65536 := by omega
  have hmap : List.mapM.loop (fun y =>
      Option.map (fun p => [Ev.row p, Ev.sleepMs 10])
        (encodeRow y (rowPixels img y))) (List.range img.height) []
      = some ((List.range img.height).map (fun y =>
          [Ev.row (rowPacketT y (rowPixels img y)), Ev.sleepMs 10])) := by
    show (List.range img.height).mapM (fun y =>
      Option.map (fun p => [Ev.row p, Ev.sleepMs 10])
        (encodeRow y (rowPixels img y))) = _
    apply mapM_eq_some_map
    intro y hy
    have hy16 : y < 65536 := by
      have := List.mem_range.mp hy
      omega
    have hrowlen : (rowPixels img y).length = img.width := by
      simp [rowPixels]
    have hrow : rowPixels img y ≠ [] := by
      intro hnil
      rw [hnil] at hrowlen
      simp at hrowlen
      omega
    rw [encodeRow_eq_some y _ hy16 hrow]
    rfl
  simp [print_image_trace, hd1, hd5, hc, packU16LE, packU16BE, h65, hhh, hww]
  rw [hmap]
  rfl

/-- Witness for C4: the one-pixel job (density 3, one copy), with the full
trace spelled out. -/
theorem print_image_sequence_witness :
    print_image_trace img1 3 1 = some (
      [Ev.cmd 33 [3], Ev.cmd 35 [1],
       Ev.cmd 1 [0, 1 % 256, 1 / 256, 0, 0, 0, 0], Ev.cmd 3 [1],
       Ev.cmd 19 [1 / 256, 1 % 256, 1 / 256, 1 % 256, 1 / 256, 1 % 256]]
      ++ ((List.range 1).map (fun y =>
            [Ev.row (rowPacketT y (rowPixels img1 y)), Ev.sleepMs 10])).flatten
      ++ [Ev.cmd 227 [1], Ev.sleepMs 2000]) :=
  print_image_sequence img1 3 1 (by decide) (by decide) (by decide)
    (by decide) (by decide) (by decide)

end Niimprint
